import Mathlib

/-!
Verification of the x402-facilitator EVM signer package
(`facilitator/evm/signer`): a shallow embedding of its EIP-712 typed-data
hashing, signature verification, signer construction and transaction
submission code, together with theorems settling the specification claims.

Bytes are modelled as `Nat` (values 0..255), byte slices as `List Nat`.
The keccak-256 primitive (go-ethereum `crypto.Keccak256`) is an external
library function; every definition that hashes takes it as an explicit
parameter `K : List Nat → List Nat` so that structural properties can be
proved for every hash function, and concrete witnesses instantiate it.
-/

namespace X402

/-- Byte strings of a Go `[]byte`. Go converts a `string` to UTF-8 bytes;
all strings occurring in this development are ASCII, for which the UTF-8
bytes coincide with the character code points. -/
def strBytes (s : String) : List Nat := s.data.map Char.toNat

/-- Base-256 digit extraction with explicit fuel (structural recursion so
that proofs can evaluate it); `fuel ≥ n` suffices since `n / 256 < n`
for positive `n`. -/
def natToBytesBEAux : Nat → Nat → List Nat
  | 0, _ => []
  | fuel + 1, n =>
    if n = 0 then [] else natToBytesBEAux fuel (n / 256) ++ [n % 256]

/-- Big-endian byte representation of the absolute value of an integer,
as produced by Go `big.Int.Bytes()`: empty for zero, no leading zeros. -/
def natToBytesBE (n : Nat) : List Nat := natToBytesBEAux n n

/-- Go `common.LeftPadBytes(slice, length)`: returns `slice` unchanged when
it is already at least `length` long, otherwise prepends zero bytes. -/
def leftPadBytes (slice : List Nat) (length : Nat) : List Nat :=
  if length ≤ slice.length then slice
  else List.replicate (length - slice.length) 0 ++ slice

/-- Go `strings.HasPrefix`, over the character list (so that it reduces
inside the kernel, unlike the position-based `String.startsWith`). -/
def strHasPrefix (s pre : String) : Bool := pre.data.isPrefixOf s.data

/-- Drop the first `n` characters of a string (Go slice `s[n:]` on the
ASCII strings occurring here). -/
def strDropChars (s : String) (n : Nat) : String := ⟨s.data.drop n⟩

/-- Value of a hexadecimal digit character, if any. -/
def hexDigitVal (c : Char) : Option Nat :=
  if '0' ≤ c ∧ c ≤ '9' then some (c.toNat - '0'.toNat)
  else if 'a' ≤ c ∧ c ≤ 'f' then some (c.toNat - 'a'.toNat + 10)
  else if 'A' ≤ c ∧ c ≤ 'F' then some (c.toNat - 'A'.toNat + 10)
  else none

/-- Decode pairs of hex digits into bytes, stopping at the first invalid
digit or odd trailing digit, as Go `common.Hex2Bytes` does (it discards
the `hex.DecodeString` error and keeps the successfully decoded prefix). -/
def hexDecode : List Char → List Nat
  | c1 :: c2 :: rest =>
    match hexDigitVal c1, hexDigitVal c2 with
    | some h, some l => (h * 16 + l) :: hexDecode rest
    | _, _ => []
  | _ => []

/-- Go `common.HexToAddress`: strips an optional `0x`/`0X` prefix, pads an
odd-length hex string with a leading `0`, decodes, then `SetBytes` crops to
the last 20 bytes or left-pads to 20 bytes. -/
def hexToAddress (s : String) : List Nat :=
  let chars :=
    if strHasPrefix s "0x" || strHasPrefix s "0X" then s.data.drop 2
    else s.data
  let chars := if chars.length % 2 = 1 then '0' :: chars else chars
  let b := hexDecode chars
  if 20 ≤ b.length then b.drop (b.length - 20)
  else List.replicate (20 - b.length) 0 ++ b

/-- Digits of a decimal numeral, or `none` when some character is not a
digit or the list is empty (Go `big.Int.SetString` base-10 digit scan). -/
def decDigits : List Char → Option Nat
  | [] => none
  | l => l.foldl (fun acc c =>
      match acc, hexDigitVal c with
      | some n, some d => if d < 10 then some (n * 10 + d) else none
      | _, _ => none) (some 0)

/-- Go `new(big.Int).SetString(s, 10)`: an optional sign followed by at
least one decimal digit. -/
def parseDecimal (s : String) : Option Int :=
  match s.data with
  | '-' :: rest => (decDigits rest).map (fun n => -(n : Int))
  | '+' :: rest => (decDigits rest).map (fun n => (n : Int))
  | l => (decDigits l).map (fun n => (n : Int))

/-! ## EIP-712 typed-data model (Go `Type`, `Types`, `TypedDataDomain`,
`TypedData` from `facilitator/evm/signer/signer.go`).  Go's `Type` struct
cannot keep its name in Lean (`Type` is a universe), so it is `TypEntry`
with fields `Name`/`Typ` for Go's `Name`/`Type`. -/

structure TypEntry where
  Name : String
  Typ : String
deriving DecidableEq, Repr

/-- Go `Types = map[string][]Type`, modelled as an association list;
lookup of a missing key yields the empty field list, as ranging over a
nil slice does in Go. -/
def Types := List (String × List TypEntry)

/-- Map lookup `types[name]`: first binding wins, missing key gives `[]`
(Go's zero value for a slice, over which the encoder loops vacuously). -/
def lookupFields (ts : Types) (name : String) : List TypEntry :=
  match ts.find? (fun p => p.1 = name) with
  | some p => p.2
  | none => []

/-- Go `TypedDataDomain`. `ChainId` is `*big.Int`; `none` models a nil
pointer. -/
structure TypedDataDomain where
  Name : String
  Version : String
  ChainId : Option Int
  VerifyingContract : String
deriving DecidableEq, Repr

/-- A Go `interface{}` value as it occurs in typed-data messages:
a string, a `*big.Int`, a `[]byte`, a `float64` (JSON numbers; modelled
by the `int64(v)` integer Go truncates it to in `encodeValue`), or the
nil interface produced by a missing map key. -/
inductive GoValue where
  | str (s : String)
  | bigInt (i : Int)
  | bytes (b : List Nat)
  | float (i : Int)
  | nilV
deriving DecidableEq, Repr

/-- Go `map[string]interface{}` message, as an association list. -/
def Message := List (String × GoValue)

/-- Message lookup `v[field.Name]`: a missing key yields the nil
interface value. -/
def lookupMsg (m : Message) (name : String) : GoValue :=
  match m.find? (fun p => p.1 = name) with
  | some p => p.2
  | none => GoValue.nilV

structure TypedData where
  Types : Types
  PrimaryType : String
  Domain : TypedDataDomain
  Message : Message

/-- The canonical type string built inside the source's `typeHash`:
`"Name(type1 field1,type2 field2,...)"` over the type's own declared
fields only — the source appends no referenced struct types. -/
def encodeTypeStr (ts : Types) (primaryType : String) : String :=
  primaryType ++ "(" ++
    String.intercalate ","
      ((lookupFields ts primaryType).map (fun f => f.Typ ++ " " ++ f.Name))
    ++ ")"

/-- Source `typeHash`: keccak-256 of the canonical type string. -/
def typeHash (K : List Nat → List Nat) (ts : Types) (primaryType : String) :
    List Nat :=
  K (strBytes (encodeTypeStr ts primaryType))

/-- Source `encodeValue`: encode one field value as bytes.  Error strings
keep the source's wording with the `%T` type verb elided. -/
def encodeValue (K : List Nat → List Nat) (fieldType : String)
    (value : GoValue) : Except String (List Nat) :=
  if fieldType = "address" then
    match value with
    | .str addr => .ok (leftPadBytes (hexToAddress addr) 32)
    | _ => .error "expected string for address"
  else if fieldType = "string" then
    match value with
    | .str s => .ok (K (strBytes s))
    | _ => .error "expected string"
  else if fieldType = "bytes" then
    match value with
    | .str v =>
      if strHasPrefix v "0x" then .ok (K (hexDecode (v.data.drop 2)))
      else .ok (K (strBytes v))
    | .bytes v => .ok (K v)
    | _ => .error "expected string or byte slice for bytes"
  else if strHasPrefix fieldType "uint" || strHasPrefix fieldType "int" then
    match value with
    | .str v =>
      match parseDecimal v with
      | none => .error ("failed to parse " ++ v ++ " as big.Int")
      | some n => .ok (leftPadBytes (natToBytesBE n.natAbs) 32)
    | .bigInt n => .ok (leftPadBytes (natToBytesBE n.natAbs) 32)
    | .float n => .ok (leftPadBytes (natToBytesBE n.natAbs) 32)
    | _ => .error "expected numeric type"
  else .error ("unsupported type: " ++ fieldType)

/-- The `data interface{}` argument of the source's `encodeData`: either
the `TypedDataDomain` struct or a message map. -/
inductive EncodeInput where
  | domain (d : TypedDataDomain)
  | message (m : Message)

/-- Source `encodeData`: type hash followed by the encoded fields.  The
domain branch unconditionally encodes all four fields — keccak of `Name`,
keccak of `Version`, `ChainId` left-padded to 32 (dereferencing the
pointer: a nil `ChainId` panics in Go, modelled as an error), and the raw
20 address bytes of `VerifyingContract`. -/
def encodeData (K : List Nat → List Nat) (ts : Types) (primaryType : String)
    (data : EncodeInput) : Except String (List Nat) :=
  let th := typeHash K ts primaryType
  match data with
  | .domain d =>
    match d.ChainId with
    | none => .error "nil ChainId dereference"
    | some c =>
      .ok (th ++ K (strBytes d.Name) ++ K (strBytes d.Version)
        ++ leftPadBytes (natToBytesBE c.natAbs) 32
        ++ hexToAddress d.VerifyingContract)
  | .message m =>
    (lookupFields ts primaryType).foldlM
      (fun acc f => do
        let fieldEncoded ← encodeValue K f.Typ (lookupMsg m f.Name)
        pure (acc ++ fieldEncoded)) th

/-- Source `hashStruct`: keccak-256 of the encoded data. -/
def hashStruct (K : List Nat → List Nat) (ts : Types) (primaryType : String)
    (data : EncodeInput) : Except String (List Nat) :=
  (encodeData K ts primaryType data).map K

/-- Source `HashTypedData`: domain separator, message hash, then
`keccak256(0x19 || 0x01 || domainSeparator || messageHash)`; returns the
digest together with the primary type name. -/
def HashTypedData (K : List Nat → List Nat) (td : TypedData) :
    Except String (List Nat × String) := do
  let domainSeparator ← hashStruct K td.Types "EIP712Domain"
    (.domain td.Domain)
  let messageHash ← hashStruct K td.Types td.PrimaryType
    (.message td.Message)
  pure (K ([0x19, 0x01] ++ domainSeparator ++ messageHash), td.PrimaryType)

/-! ## Signature verification (`VerifyTypedData`). The secp256k1 public-key
recovery itself is go-ethereum library code; it is abstracted by a
recovery function over an abstract public-key type, wrapped with the
length/recovery-id validation that go-ethereum's
`secp256k1.RecoverPubkey` performs before any curve arithmetic. -/

/-- The in-place v adjustment of the source's `VerifyTypedData`:
`if len(sig) == 65 && sig[64] >= 27 { sig[64] -= 27 }` (on a copy). -/
def normalizeV (sig : List Nat) : List Nat :=
  if sig.length = 65 ∧ 27 ≤ sig.getD 64 0 then
    sig.set 64 (sig.getD 64 0 - 27)
  else sig

/-- Models go-ethereum `crypto.SigToPub`: `secp256k1.RecoverPubkey`
rejects signatures whose length is not 65 bytes and recovery ids not in
0..3 before running the abstract curve recovery `recover`. -/
def sigToPub {P : Type} (recover : List Nat → List Nat → Except String P)
    (digest sig : List Nat) : Except String P :=
  if sig.length ≠ 65 then .error "invalid signature length"
  else if 4 ≤ sig.getD 64 0 then .error "invalid signature recovery id"
  else recover digest sig

/-- The four-field `EIP712Domain` type list hard-coded by the source's
`VerifyTypedData`. -/
def evmDomainTypeFields : List TypEntry :=
  [⟨"name", "string"⟩, ⟨"version", "string"⟩,
   ⟨"chainId", "uint256"⟩, ⟨"verifyingContract", "address"⟩]

/-- The `typedData` value the source's `VerifyTypedData` assembles: the
hard-coded `EIP712Domain` type plus the caller's custom types (skipping
any `EIP712Domain` entry). -/
def buildVerifyTypedData (domain : TypedDataDomain) (tys : Types)
    (primaryType : String) (message : Message) : TypedData :=
  ⟨("EIP712Domain", evmDomainTypeFields)
      :: tys.filter (fun p => p.1 ≠ "EIP712Domain"),
   primaryType, domain, message⟩

/-- Source `VerifyTypedData`: builds the `TypedData`, hashes it,
normalizes v, recovers the public key and compares the derived address
with the expected one.  `toAddr` models `crypto.PubkeyToAddress`. -/
def VerifyTypedData {P : Type} (K : List Nat → List Nat)
    (recover : List Nat → List Nat → Except String P)
    (toAddr : P → List Nat) (address : String) (domain : TypedDataDomain)
    (tys : Types) (primaryType : String) (message : Message)
    (signature : List Nat) : Except String Bool :=
  match HashTypedData K
      (buildVerifyTypedData domain tys primaryType message) with
  | .error e => .error ("failed to hash typed data: " ++ e)
  | .ok (digest, _) =>
    match sigToPub recover digest (normalizeV signature) with
    | .error e => .error ("failed to recover public key: " ++ e)
    | .ok pubKey =>
      .ok (toAddr pubKey == hexToAddress address)

/-! ## Signer construction and transaction lifecycle.  RPC calls made
through the go-ethereum `ethclient.Client` are modelled as explicit
response functions; transactions submitted during a call are returned as
an explicit log (explicit state passing for the chain's state). -/

/-- In-memory `EVMSigner` state: the fields of the Go struct that the
modelled methods read (`client` is replaced by the explicit `EthClient`
responses below). -/
structure EVMSigner where
  addresses : List (List Nat)
  chainID : Int
  signer : List Nat → Except String (List Nat)

/-- Configuration struct `EVMSignerConfig` from the source. -/
structure EVMSignerConfig where
  RpcURL : String
  ChainID : Int
  PrivateKey : String
  Signer : Option (List Nat → Except String (List Nat))
  Addresses : List String

/-- Responses of the external go-ethereum calls made by `NewEVMSigner`
and `createPrivateKeySigner`, over an abstract private-key type `PK`:
`ethclient.Dial`, `client.NetworkID`, `crypto.HexToECDSA`,
`crypto.PubkeyToAddress` of the key's public key, and `crypto.Sign`. -/
structure DialEnv (PK : Type) where
  dial : String → Except String Unit
  networkID : Except String Int
  hexToECDSA : String → Except String PK
  pubkeyToAddress : PK → List Nat
  cryptoSign : PK → List Nat → Except String (List Nat)

/-- Source `createPrivateKeySigner`: wraps `crypto.Sign` on the key. -/
def createPrivateKeySigner {PK : Type} (env : DialEnv PK) (privateKey : PK) :
    List Nat → Except String (List Nat) := fun digest =>
  match env.cryptoSign privateKey digest with
  | .error e => .error ("failed to sign digest: " ++ e)
  | .ok sig => .ok sig

/-- Go `strings.TrimPrefix(s, "0x")`. -/
def trim0x (s : String) : String :=
  if strHasPrefix s "0x" then strDropChars s 2 else s

/-- Source `NewEVMSigner`: validates the RPC URL, dials, fetches the
network id, checks it against the configured chain id, maps any explicit
addresses, then selects the signing mechanism — the callback when
present, otherwise the parsed private key (deriving the address from it
only when no explicit addresses were given).  The mismatch error's
embedded numbers are elided. -/
def NewEVMSigner {PK : Type} (env : DialEnv PK) (config : EVMSignerConfig) :
    Except String EVMSigner :=
  if config.RpcURL = "" then .error "rpc URL is required"
  else match env.dial config.RpcURL with
  | .error e => .error ("failed to connect to RPC: " ++ e)
  | .ok _ =>
  match env.networkID with
  | .error e => .error ("failed to get network ID: " ++ e)
  | .ok chainID =>
  if config.ChainID ≠ 0 ∧ chainID ≠ config.ChainID then
    .error "chain ID mismatch"
  else
    let addrs := config.Addresses.map hexToAddress
    match config.Signer with
    | some cb => .ok ⟨addrs, chainID, cb⟩
    | none =>
      if config.PrivateKey ≠ "" then
        match env.hexToECDSA (trim0x config.PrivateKey) with
        | .error e => .error ("failed to parse private key: " ++ e)
        | .ok privateKey =>
          let addrs' :=
            if addrs.isEmpty then [env.pubkeyToAddress privateKey]
            else addrs
          .ok ⟨addrs', chainID, createPrivateKeySigner env privateKey⟩
      else .error "either PrivateKey or SignerCallback must be provided"

/-- A legacy transaction as built by
`ethTypes.NewTransaction(nonce, to, amount, gasLimit, gasPrice, data)`. -/
structure Tx where
  nonce : Nat
  toAddr : List Nat
  value : Int
  gasLimit : Nat
  gasPrice : Int
  data : List Nat
deriving DecidableEq, Repr

/-- A signed transaction: the intent plus the raw 65-byte signature
attached by `tx.WithSignature`. -/
structure SignedTx where
  tx : Tx
  sig : List Nat
deriving DecidableEq, Repr

/-- Go `ethereum.CallMsg` (the fields the source populates; `From`/`To`
renamed since `from`/`to` are Lean tokens). -/
structure CallMsg where
  fromAddr : Option (List Nat)
  toAddr : Option (List Nat)
  data : List Nat

/-- Responses of the `ethclient.Client` RPC calls used by the submission
path, plus the chain's acceptance of a submitted transaction. -/
structure EthClient where
  pendingNonceAt : List Nat → Except String Nat
  suggestGasPrice : Except String Int
  estimateGas : CallMsg → Except String Nat
  sendTransaction : SignedTx → Except String Unit

/-- External signing-digest and hash computations of go-ethereum
(`LatestSignerForChainID(chainID).Hash(tx)` and
`signedTx.Hash().Hex()`). -/
structure TxEnv where
  txDigest : Tx → List Nat
  signedTxHashHex : SignedTx → String

/-- Go `tx.WithSignature(signer, sig)`: the signer's `SignatureValues`
rejects signatures that are not exactly 65 bytes. -/
def withSignature (tx : Tx) (sig : List Nat) : Except String SignedTx :=
  if sig.length = 65 then .ok ⟨tx, sig⟩
  else .error "wrong size for signature"

/-- Source `WriteContract`.  `packed` is the outcome of the external
`abi.JSON` + `parsedABI.Pack` calls (its error already wrapped).  The
second component of the result is the list of transactions handed to
`client.SendTransaction` during the call. -/
def WriteContract (env : TxEnv) (client : EthClient) (s : EVMSigner)
    (address : String) (packed : Except String (List Nat)) :
    Except String String × List SignedTx :=
  match s.addresses with
  | [] => (.error "no signer addresses available", [])
  | fromAddr :: _ =>
    let contractAddr := hexToAddress address
    match packed with
    | .error e => (.error e, [])
    | .ok data =>
    match client.pendingNonceAt fromAddr with
    | .error e => (.error ("failed to get nonce: " ++ e), [])
    | .ok nonce =>
    match client.suggestGasPrice with
    | .error e => (.error ("failed to suggest gas price: " ++ e), [])
    | .ok gasPrice =>
    match client.estimateGas ⟨some fromAddr, some contractAddr, data⟩ with
    | .error e => (.error ("failed to estimate gas: " ++ e), [])
    | .ok gasLimit =>
    let tx : Tx := ⟨nonce, contractAddr, 0, gasLimit, gasPrice, data⟩
    match s.signer (env.txDigest tx) with
    | .error e => (.error ("failed to sign transaction: " ++ e), [])
    | .ok sig =>
    match withSignature tx sig with
    | .error e => (.error ("failed to apply signature: " ++ e), [])
    | .ok signedTx =>
    match client.sendTransaction signedTx with
    | .error e => (.error ("failed to send transaction: " ++ e), [signedTx])
    | .ok _ => (.ok (env.signedTxHashHex signedTx), [signedTx])

/-- Source `SendTransaction`: as `WriteContract` but with caller-supplied
calldata and recipient, no ABI packing. -/
def SendTransaction (env : TxEnv) (client : EthClient) (s : EVMSigner)
    (toHex : String) (data : List Nat) :
    Except String String × List SignedTx :=
  match s.addresses with
  | [] => (.error "no signer addresses available", [])
  | fromAddr :: _ =>
    let toAddr := hexToAddress toHex
    match client.pendingNonceAt fromAddr with
    | .error e => (.error ("failed to get nonce: " ++ e), [])
    | .ok nonce =>
    match client.suggestGasPrice with
    | .error e => (.error ("failed to suggest gas price: " ++ e), [])
    | .ok gasPrice =>
    match client.estimateGas ⟨some fromAddr, some toAddr, data⟩ with
    | .error e => (.error ("failed to estimate gas: " ++ e), [])
    | .ok gasLimit =>
    let tx : Tx := ⟨nonce, toAddr, 0, gasLimit, gasPrice, data⟩
    match s.signer (env.txDigest tx) with
    | .error e => (.error ("failed to sign transaction: " ++ e), [])
    | .ok sig =>
    match withSignature tx sig with
    | .error e => (.error ("failed to apply signature: " ++ e), [])
    | .ok signedTx =>
    match client.sendTransaction signedTx with
    | .error e => (.error ("failed to send transaction: " ++ e), [signedTx])
    | .ok _ => (.ok (env.signedTxHashHex signedTx), [signedTx])

/-- Receipt as returned by the RPC (`*ethTypes.Receipt` fields used). -/
structure EthReceipt where
  status : Nat
  blockNumber : Nat
  txHashHex : String
deriving DecidableEq, Repr

/-- Receipt the source converts to (`types.TransactionReceipt`). -/
structure TransactionReceipt where
  Status : Nat
  BlockNumber : Nat
  TxHash : String
deriving DecidableEq, Repr

/-- `bind.WaitMined`: polls `TransactionReceipt(ctx, tx.Hash())` once per
tick until a receipt appears or the context deadline fires.
`receiptAt t h` is the chain's answer at tick `t` for hash `h`;
`fuel` is the number of ticks left before the deadline. -/
def waitMined (receiptAt : Nat → String → Option EthReceipt) (hash : String) :
    Nat → Nat → Except String (Nat × EthReceipt)
  | _, 0 => .error "context deadline exceeded"
  | t, fuel + 1 =>
    match receiptAt t hash with
    | some r => .ok (t, r)
    | none => waitMined receiptAt hash (t + 1) fuel

/-- The hash polled by the source's `WaitForTransactionReceipt`: it hands
`bind.WaitMined` a zero-value `&ethTypes.Transaction{}` — not the
transaction named by `txHash`.  (In Go, `Hash()` on that zero value
dereferences a nil `TxData`; its would-be hash is modelled as a
distinguished constant that no real transaction carries.) -/
def emptyTxHashHex : String := ""

/-- Source `WaitForTransactionReceipt`: waits via `bind.WaitMined` on the
zero-value transaction, then fetches the receipt for the actual hash. -/
def WaitForTransactionReceipt
    (receiptAt : Nat → String → Option EthReceipt)
    (deadline : Nat) (txHash : String) : Except String TransactionReceipt :=
  match waitMined receiptAt emptyTxHashHex 0 deadline with
  | .error e => .error ("failed to wait for transaction: " ++ e)
  | .ok (t, _) =>
    match receiptAt t txHash with
    | none => .error "failed to get transaction receipt: not found"
    | some receipt =>
      .ok ⟨receipt.status, receipt.blockNumber, receipt.txHashHex⟩

/-! ## Spec-side definitions, for comparison with the source. -/

/-- Struct-type names directly referenced by the fields of `name`,
keeping only declared struct types and excluding `EIP712Domain`. -/
def directStructRefs (ts : Types) (name : String) : List String :=
  (((lookupFields ts name).map (fun f => f.Typ)).filter
    (fun t => t ≠ "EIP712Domain" ∧ (ts.find? (fun p => p.1 = t)).isSome)).dedup

/-- Insertion of a string into a lexicographically sorted list. -/
def insertSorted (s : String) : List String → List String
  | [] => [s]
  | t :: rest => if s ≤ t then s :: t :: rest else t :: insertSorted s rest

/-- Lexicographic insertion sort on strings. -/
def sortStrings (l : List String) : List String :=
  l.foldr insertSorted []

/-- Struct-type names transitively referenced from `primaryType`
(excluding `primaryType` itself and `EIP712Domain`, without
duplicates): the direct references closed under one expansion step per
declared type. -/
def transitiveStructRefs (ts : Types) (primaryType : String) : List String :=
  let step := fun (cur : List String) =>
    (cur ++ cur.flatMap (fun n => directStructRefs ts n)).dedup
  (((List.range ts.length).foldl (fun acc _ => step acc)
      (directStructRefs ts primaryType)).filter
    (fun t => t ≠ primaryType)).dedup

/-- Modelled from the spec: the full EIP-712 `encodeType(name)` — "the
canonical string ... followed by the canonical strings of every struct
type transitively referenced by any field, each appended in strict
lexicographic order by type name (excluding the `EIP712Domain`
pseudo-type and excluding duplicates)". -/
def specEncodeType (ts : Types) (primaryType : String) : String :=
  encodeTypeStr ts primaryType ++
    String.join ((sortStrings (transitiveStructRefs ts primaryType)).map
      (encodeTypeStr ts))

/-- Modelled from the spec: the `EIP712Domain` fields "actually present"
(non-empty) in a domain, in the canonical field order. -/
def presentDomainFields (d : TypedDataDomain) : List TypEntry :=
  (if d.Name ≠ "" then [⟨"name", "string"⟩] else []) ++
  (if d.Version ≠ "" then [⟨"version", "string"⟩] else []) ++
  (if d.ChainId ≠ none then [⟨"chainId", "uint256"⟩] else []) ++
  (if d.VerifyingContract ≠ "" then [⟨"verifyingContract", "address"⟩]
   else [])

/-- Modelled from the spec: the domain type string over only the fields
actually present. -/
def specDomainTypeStr (d : TypedDataDomain) : String :=
  encodeTypeStr [("EIP712Domain", presentDomainFields d)] "EIP712Domain"

/-- Modelled from the spec: `hashStruct("EIP712Domain", domain)` input
"using only the domain fields actually present" — the present-fields
type hash followed by the encodings of exactly the present fields
(address left-padded to 32 per the spec's `encodeValue`). -/
def specEncodeDomainData (K : List Nat → List Nat) (d : TypedDataDomain) :
    List Nat :=
  K (strBytes (specDomainTypeStr d)) ++
  (if d.Name ≠ "" then K (strBytes d.Name) else []) ++
  (if d.Version ≠ "" then K (strBytes d.Version) else []) ++
  (match d.ChainId with
   | some c => leftPadBytes (natToBytesBE c.natAbs) 32
   | none => []) ++
  (if d.VerifyingContract ≠ "" then
    leftPadBytes (hexToAddress d.VerifyingContract) 32
   else [])

/-- An injective stand-in hash used wherever a counterexample needs a
concrete keccak-256: length-prefixed identity. -/
def dummyK (l : List Nat) : List Nat := l.length :: l

end X402

deriving instance DecidableEq for Except

namespace X402

/-! ## Concrete fixtures for counterexamples and witnesses. -/

/-- A struct type `Mail` whose field references the struct type
`Person`. -/
def mailTypes : Types :=
  [("Mail", [⟨"from", "Person"⟩, ⟨"contents", "string"⟩]),
   ("Person", [⟨"name", "string"⟩, ⟨"wallet", "address"⟩])]

/-- A domain with the `name` field omitted (empty). -/
def noNameDomain : TypedDataDomain :=
  ⟨"", "1", some 1, "0x0000000000000000000000000000000000000001"⟩

/-- A chain on which the transaction `0xabc` is mined (receipt available)
from tick 0 on, and no other transaction ever is. -/
def chainMinedAbc : Nat → String → Option EthReceipt := fun _ h =>
  if h = "0xabc" then some ⟨1, 10, "0xabc"⟩ else none

/-- A constant 32-byte stand-in hash, for witnesses needing the
32-byte-output property of keccak-256. -/
def K32 : List Nat → List Nat := fun _ => List.replicate 32 7

/-- Scenario A typed data: domain `{Test, 1, 1, 0x…01}`, type
`Message{content: string}`, message `{content: "hi"}`. -/
def scenTypes : Types :=
  [("EIP712Domain", evmDomainTypeFields),
   ("Message", [⟨"content", "string"⟩])]

def scenDomain : TypedDataDomain :=
  ⟨"Test", "1", some 1, "0x0000000000000000000000000000000000000001"⟩

def scenMessage : Message := [("content", .str "hi")]

def scenTD : TypedData := ⟨scenTypes, "Message", scenDomain, scenMessage⟩

/-- The custom types handed to `VerifyTypedData` in the scenario. -/
def scenCustomTypes : Types := [("Message", [⟨"content", "string"⟩])]

/-- A mock RPC client reporting pending nonce 5, gas price 1000000000 and
gas estimate 21000, with submission outcome `st`. -/
def cannedClient (st : SignedTx → Except String Unit) : EthClient :=
  ⟨fun _ => .ok 5, .ok 1000000000, fun _ => .ok 21000, st⟩

/-- A trivial recovery function over the unit public-key type. -/
def unitRecover : List Nat → List Nat → Except String Unit :=
  fun _ _ => .ok ()

/-- A trivial address derivation for the unit public-key type. -/
def unitToAddr : Unit → List Nat := fun _ => List.replicate 20 9

/-- Concrete external digest/hash computations for witnesses. -/
def txEnvFix : TxEnv := ⟨fun _ => List.replicate 32 1, fun _ => "0xhash"⟩

/-- Concrete dial environment over the unit private-key type. -/
def unitDialEnv : DialEnv Unit :=
  ⟨fun _ => .ok (), .ok 84532, fun _ => .ok (),
   fun _ => List.replicate 20 3, fun _ _ => .ok (List.replicate 65 0)⟩

/-- A fixed signing callback. -/
def cbFix : List Nat → Except String (List Nat) :=
  fun _ => .ok (List.replicate 65 1)

/-- A config supplying both a callback and a private key, plus an
explicit address list. -/
def cfgBoth : EVMSignerConfig :=
  ⟨"https://rpc.example", 84532, "deadbeef", some cbFix,
   ["0x0000000000000000000000000000000000000002"]⟩

/-- A signer with an empty address list (as produced by a callback-backed
construction without explicit addresses). -/
def emptyAddrSigner : EVMSigner := ⟨[], 84532, cbFix⟩

/-! ## Helper lemmas. -/

/-- `getD` at the position of the last element of a one-longer list. -/
theorem getD_concat (l : List Nat) (a d : Nat) :
    (l ++ [a]).getD l.length d = a := by
  induction l with
  | nil => rfl
  | cons x xs ih => simp [ih]

/-- `set` at the position of the last element of a one-longer list. -/
theorem set_concat (l : List Nat) (a b : Nat) :
    (l ++ [a]).set l.length b = l ++ [b] := by
  induction l with
  | nil => rfl
  | cons x xs ih => simp [ih]

/-- v-normalization preserves the signature length. -/
theorem normalizeV_length (sig : List Nat) :
    (normalizeV sig).length = sig.length := by
  unfold normalizeV
  split
  · simp
  · rfl

/-- v-normalization on a 65-byte signature split as `l ++ [v]`:
subtracts 27 from the final byte exactly when it is at least 27. -/
theorem normalizeV_concat (l : List Nat) (hl : l.length = 64) (v : Nat) :
    normalizeV (l ++ [v]) = l ++ [if 27 ≤ v then v - 27 else v] := by
  unfold normalizeV
  rw [show (64 : Nat) = l.length from hl.symm]
  by_cases h27 : 27 ≤ v
  · rw [if_pos ⟨by simp [hl], by rw [getD_concat]; exact h27⟩,
      getD_concat, set_concat, if_pos h27]
  · rw [if_neg, if_neg h27]
    rintro ⟨-, hc⟩
    rw [getD_concat] at hc
    exact h27 hc

/-! ## Claim theorems. -/

/-- Claim C1: the spec requires the canonical type string hashed by
`typeHash` to include, after the primary type's own canonical string,
the canonical strings of every transitively referenced struct type in
lexicographic order.  The source does not: for `Mail` referencing
`Person`, the string built by `typeHash` is the flat `Mail(...)` string,
`Person`'s canonical substring does not occur in it, and it differs from
the spec's complete `encodeType`. -/
theorem typeHash_string_omits_referenced_structs :
    encodeTypeStr mailTypes "Mail" = "Mail(Person from,string contents)" ∧
    specEncodeType mailTypes "Mail" =
      "Mail(Person from,string contents)Person(string name,address wallet)"
    ∧ ¬ ("Person(string name,address wallet)".data <:+:
        (encodeTypeStr mailTypes "Mail").data) := by
  refine ⟨by decide, by decide, by decide⟩

/-- Claim C2: `WaitForTransactionReceipt` is claimed to poll the chain
for the transaction identified by `txHash` until mined or deadline.  It
does not: it waits on a zero-value transaction instead, so on a chain
where `0xabc` is mined (receipt available) from tick 0 on while the
zero-value transaction's hash never is, the call exhausts its deadline
and fails instead of returning the available receipt. -/
theorem waitForReceipt_polls_zero_value_tx :
    (∀ t, chainMinedAbc t "0xabc" = some ⟨1, 10, "0xabc"⟩) ∧
    (∀ t, chainMinedAbc t emptyTxHashHex = none) ∧
    WaitForTransactionReceipt chainMinedAbc 3 "0xabc" =
      .error "failed to wait for transaction: context deadline exceeded" := by
  refine ⟨fun t => rfl, fun t => rfl, rfl⟩

/-- Claim C3 counterexample: for a domain omitting `name`, the domain
type string the hashing path uses is still the full four-field one — not
the present-fields-only type the claim requires — and the encoded domain
data differs from the spec's present-fields-only encoding. -/
theorem domainHash_not_filtered_cx :
    encodeTypeStr [("EIP712Domain", evmDomainTypeFields)] "EIP712Domain" ≠
      specDomainTypeStr noNameDomain ∧
    encodeData dummyK [("EIP712Domain", evmDomainTypeFields)] "EIP712Domain"
      (.domain noNameDomain) ≠
      .ok (specEncodeDomainData dummyK noNameDomain) := by
  refine ⟨by decide, by decide⟩

/-- Claim C3 (amended): the domain hashing is presence-blind — for every
domain with a non-nil `ChainId`, `encodeData` unconditionally encodes all
four fields (keccak of the possibly-empty name and version, the padded
chain id, and the raw 20 address bytes), under the full type hash. -/
theorem encodeData_domain_unconditional (K : List Nat → List Nat)
    (ts : Types) (d : TypedDataDomain) (c : Int) (h : d.ChainId = some c) :
    encodeData K ts "EIP712Domain" (.domain d) =
      .ok (typeHash K ts "EIP712Domain" ++ K (strBytes d.Name) ++
        K (strBytes d.Version) ++ leftPadBytes (natToBytesBE c.natAbs) 32 ++
        hexToAddress d.VerifyingContract) := by
  simp [encodeData, h]

/-- Witness for `encodeData_domain_unconditional` at the no-name
domain. -/
theorem encodeData_domain_unconditional_witness :
    encodeData dummyK [("EIP712Domain", evmDomainTypeFields)] "EIP712Domain"
      (.domain noNameDomain) =
      .ok (typeHash dummyK [("EIP712Domain", evmDomainTypeFields)]
          "EIP712Domain" ++ dummyK (strBytes "") ++ dummyK (strBytes "1") ++
        leftPadBytes (natToBytesBE (1 : Int).natAbs) 32 ++
        hexToAddress "0x0000000000000000000000000000000000000001") :=
  encodeData_domain_unconditional dummyK
    [("EIP712Domain", evmDomainTypeFields)] noNameDomain 1 rfl

/-- Claim C4: signatures differing only in the recovery-id encoding — v
given as 0/1 versus the same value plus 27, with identical r and s — are
both accepted by `VerifyTypedData` and yield identical verification
results (both recover to the same address). -/
theorem verifyTypedData_v_normalization {P : Type} (K : List Nat → List Nat)
    (recover : List Nat → List Nat → Except String P)
    (toAddr : P → List Nat) (address : String) (domain : TypedDataDomain)
    (tys : Types) (primaryType : String) (message : Message)
    (r s : List Nat) (v : Nat) (hr : r.length = 32) (hs : s.length = 32)
    (hv : v ≤ 1) :
    VerifyTypedData K recover toAddr address domain tys primaryType message
      (r ++ s ++ [v]) =
    VerifyTypedData K recover toAddr address domain tys primaryType message
      (r ++ s ++ [v + 27]) := by
  have hl : (r ++ s).length = 64 := by simp [hr, hs]
  have h1 : normalizeV (r ++ s ++ [v]) = r ++ s ++ [v] := by
    rw [normalizeV_concat (r ++ s) hl v, if_neg (by omega)]
  have h2 : normalizeV (r ++ s ++ [v + 27]) = r ++ s ++ [v] := by
    rw [normalizeV_concat (r ++ s) hl (v + 27), if_pos (by omega),
      Nat.add_sub_cancel]
  unfold VerifyTypedData
  rw [h1, h2]

/-- Witness for `verifyTypedData_v_normalization`: v = 0 versus v = 27 on
concrete 32-byte r and s. -/
theorem verifyTypedData_v_normalization_witness :
    VerifyTypedData K32 unitRecover unitToAddr
      "0x0000000000000000000000000000000000000009" scenDomain
      scenCustomTypes "Message" scenMessage
      (List.replicate 32 1 ++ List.replicate 32 2 ++ [0]) =
    VerifyTypedData K32 unitRecover unitToAddr
      "0x0000000000000000000000000000000000000009" scenDomain
      scenCustomTypes "Message" scenMessage
      (List.replicate 32 1 ++ List.replicate 32 2 ++ [0 + 27]) :=
  verifyTypedData_v_normalization K32 unitRecover unitToAddr
    "0x0000000000000000000000000000000000000009" scenDomain
    scenCustomTypes "Message" scenMessage
    (List.replicate 32 1) (List.replicate 32 2) 0
    (by decide) (by decide) (by decide)

/-- Claim C5: a signature whose length is not 65 bytes never verifies:
the result is always an error — exactly the wrapped
invalid-signature-length recovery error whenever the typed-data hashing
itself succeeds — and recovery is never reached, so no address (zero or
otherwise) is ever produced. -/
theorem verifyTypedData_bad_siglen {P : Type} (K : List Nat → List Nat)
    (recover : List Nat → List Nat → Except String P)
    (toAddr : P → List Nat) (address : String) (domain : TypedDataDomain)
    (tys : Types) (primaryType : String) (message : Message)
    (sig : List Nat) (hlen : sig.length ≠ 65) :
    VerifyTypedData K recover toAddr address domain tys primaryType message
      sig =
      match HashTypedData K
          (buildVerifyTypedData domain tys primaryType message) with
      | .error e => .error ("failed to hash typed data: " ++ e)
      | .ok _ =>
        .error "failed to recover public key: invalid signature length" := by
  unfold VerifyTypedData
  cases h : HashTypedData K
      (buildVerifyTypedData domain tys primaryType message) with
  | error e => rfl
  | ok pr =>
    have hn : (normalizeV sig).length ≠ 65 := by
      rw [normalizeV_length]; exact hlen
    obtain ⟨digest, pt⟩ := pr
    simp [sigToPub, hn]

/-- Witness for `verifyTypedData_bad_siglen` at the empty signature. -/
theorem verifyTypedData_bad_siglen_witness :
    VerifyTypedData K32 unitRecover unitToAddr
      "0x0000000000000000000000000000000000000009" scenDomain
      scenCustomTypes "Message" scenMessage [] =
      .error "failed to recover public key: invalid signature length" := by
  rw [verifyTypedData_bad_siglen K32 unitRecover unitToAddr
    "0x0000000000000000000000000000000000000009" scenDomain
    scenCustomTypes "Message" scenMessage [] (by decide)]
  rfl

/-- Claim C6 counterexample: a negative `uint256` value is not rejected —
`encodeValue` succeeds and encodes the absolute value into a 32-byte
word, both for a decimal string and for a native big integer. -/
theorem encodeValue_uint_negative_no_error :
    encodeValue dummyK "uint256" (.str "-5") =
      .ok (leftPadBytes [5] 32) ∧
    encodeValue dummyK "uint256" (.bigInt (-5)) =
      .ok (leftPadBytes [5] 32) := by
  refine ⟨by decide, by decide⟩

/-- Claim C6 (amended): for `uintN` fields `encodeValue` accepts every
integer, negative ones included, and encodes the big-endian bytes of its
absolute value left-padded to 32 — for native big integers and for
decimal strings alike. -/
theorem encodeValue_uint_encodes_absolute (K : List Nat → List Nat)
    (n : Int) (s : String) (i : Int) (hparse : parseDecimal s = some i) :
    encodeValue K "uint256" (.bigInt n) =
      .ok (leftPadBytes (natToBytesBE n.natAbs) 32) ∧
    encodeValue K "uint256" (.str s) =
      .ok (leftPadBytes (natToBytesBE i.natAbs) 32) := by
  have hp : strHasPrefix "uint256" "uint" = true := by decide
  constructor
  · simp [encodeValue, hp]
  · simp [encodeValue, hp, hparse]

/-- Witness for `encodeValue_uint_encodes_absolute` at `-5` and
`"-7"`. -/
theorem encodeValue_uint_encodes_absolute_witness :
    encodeValue dummyK "uint256" (.bigInt (-5)) =
      .ok (leftPadBytes (natToBytesBE (Int.natAbs (-5))) 32) ∧
    encodeValue dummyK "uint256" (.str "-7") =
      .ok (leftPadBytes (natToBytesBE (Int.natAbs (-7))) 32) :=
  encodeValue_uint_encodes_absolute dummyK (-5) "-7" (-7) (by decide)

/-- Claim C7: for fixed (domain, types, primaryType, message), the final
typed-data digest equals keccak256 of the prefix bytes 0x19 0x01
followed by the domain hash and then the struct hash of the primary type
over the message; with a 32-byte-output hash the digest is exactly 32
bytes. -/
theorem hashTypedData_digest_structure (K : List Nat → List Nat)
    (td : TypedData) (dh mh : List Nat)
    (hK : ∀ x, (K x).length = 32)
    (h1 : hashStruct K td.Types "EIP712Domain" (.domain td.Domain) = .ok dh)
    (h2 : hashStruct K td.Types td.PrimaryType (.message td.Message) =
      .ok mh) :
    HashTypedData K td =
      .ok (K ([0x19, 0x01] ++ dh ++ mh), td.PrimaryType) ∧
    (K ([0x19, 0x01] ++ dh ++ mh)).length = 32 := by
  constructor
  · simp [HashTypedData, h1, h2]; rfl
  · exact hK _

/-- Witness for `hashTypedData_digest_structure` on the Scenario A typed
data with the constant 32-byte hash. -/
theorem hashTypedData_digest_structure_witness :
    HashTypedData K32 scenTD =
      .ok (K32 ([0x19, 0x01] ++ List.replicate 32 7 ++ List.replicate 32 7),
        scenTD.PrimaryType) ∧
    (K32 ([0x19, 0x01] ++ List.replicate 32 7 ++ List.replicate 32 7)).length
      = 32 :=
  hashTypedData_digest_structure K32 scenTD (List.replicate 32 7)
    (List.replicate 32 7) (fun _ => by simp [K32]) (by decide) (by decide)

/-- Claim C8: against an RPC reporting pending nonce 5, gas price
1000000000 and gas estimate 21000, `WriteContract` signs a transaction
carrying exactly those values and, as soon as submission succeeds,
returns its hash with no further chain interaction. -/
theorem writeContract_uses_reported_values (env : TxEnv)
    (st : SignedTx → Except String Unit)
    (sgn : List Nat → Except String (List Nat)) (chainID : Int)
    (a : List Nat) (rest : List (List Nat)) (address : String)
    (data : List Nat) :
    WriteContract env (cannedClient st) ⟨a :: rest, chainID, sgn⟩ address
      (.ok data) =
      (match sgn (env.txDigest
          ⟨5, hexToAddress address, 0, 21000, 1000000000, data⟩) with
       | .error e => (.error ("failed to sign transaction: " ++ e), [])
       | .ok sig =>
         match withSignature
             ⟨5, hexToAddress address, 0, 21000, 1000000000, data⟩ sig with
         | .error e => (.error ("failed to apply signature: " ++ e), [])
         | .ok signedTx =>
           match st signedTx with
           | .error e => (.error ("failed to send transaction: " ++ e),
               [signedTx])
           | .ok _ => (.ok (env.signedTxHashHex signedTx), [signedTx])) :=
  rfl

/-- Claim C9: when a configuration provides both a callback and a private
key, construction selects the callback and never derives an address from
the key; derivation from the key happens only with no callback and no
explicit address list. -/
theorem newEVMSigner_callback_precedence {PK : Type} (env : DialEnv PK)
    (cfg : EVMSignerConfig) (netID : Int)
    (hurl : cfg.RpcURL ≠ "")
    (hdial : env.dial cfg.RpcURL = .ok ())
    (hnet : env.networkID = .ok netID)
    (hchain : cfg.ChainID = 0 ∨ netID = cfg.ChainID) :
    (∀ cb, cfg.Signer = some cb →
      NewEVMSigner env cfg =
        .ok ⟨cfg.Addresses.map hexToAddress, netID, cb⟩) ∧
    (∀ pk, cfg.Signer = none → cfg.PrivateKey ≠ "" →
      env.hexToECDSA (trim0x cfg.PrivateKey) = .ok pk →
      NewEVMSigner env cfg =
        .ok ⟨(if (cfg.Addresses.map hexToAddress).isEmpty
              then [env.pubkeyToAddress pk]
              else cfg.Addresses.map hexToAddress),
             netID, createPrivateKeySigner env pk⟩) := by
  have hmm : ¬ (cfg.ChainID ≠ 0 ∧ netID ≠ cfg.ChainID) := by
    rcases hchain with h | h <;> simp [h]
  constructor
  · intro cb hcb
    simp [NewEVMSigner, hurl, hdial, hnet, hmm, hcb]
  · intro pk h1 h2 h3
    simp [NewEVMSigner, hurl, hdial, hnet, hmm, h1, h2, h3]

/-- Witness for `newEVMSigner_callback_precedence` on a config with both
a callback and a private key. -/
theorem newEVMSigner_callback_precedence_witness :
    NewEVMSigner unitDialEnv cfgBoth =
      .ok ⟨cfgBoth.Addresses.map hexToAddress, 84532, cbFix⟩ :=
  (newEVMSigner_callback_precedence unitDialEnv cfgBoth 84532
    (by decide) rfl rfl (Or.inr rfl)).1 cbFix rfl

/-- Claim C10: with an empty signer address list, `WriteContract` and
`SendTransaction` fail immediately — for every client and environment the
result is the no-signer-addresses error and the submission log is empty,
so no nonce fetch, gas estimation, signing or submission happens. -/
theorem submission_requires_signer_address (env : TxEnv)
    (client : EthClient) (s : EVMSigner) (address toHex : String)
    (packed : Except String (List Nat)) (data : List Nat)
    (h : s.addresses = []) :
    WriteContract env client s address packed =
      (.error "no signer addresses available", []) ∧
    SendTransaction env client s toHex data =
      (.error "no signer addresses available", []) := by
  obtain ⟨addrs, cid, sg⟩ := s
  simp only at h
  subst h
  exact ⟨rfl, rfl⟩

/-- Witness for `submission_requires_signer_address` on a concrete
empty-address signer and a live mock client. -/
theorem submission_requires_signer_address_witness :
    WriteContract txEnvFix (cannedClient (fun _ => .ok ())) emptyAddrSigner
      "0x0000000000000000000000000000000000000001" (.ok [1, 2]) =
      (.error "no signer addresses available", []) ∧
    SendTransaction txEnvFix (cannedClient (fun _ => .ok ())) emptyAddrSigner
      "0x0000000000000000000000000000000000000001" [1, 2] =
      (.error "no signer addresses available", []) :=
  submission_requires_signer_address txEnvFix
    (cannedClient (fun _ => .ok ())) emptyAddrSigner
    "0x0000000000000000000000000000000000000001"
    "0x0000000000000000000000000000000000000001" (.ok [1, 2]) [1, 2] rfl

end X402
